import Mathlib

/-
  Shallow embedding of the VSSStratEnv reward / observation / actuator /
  placement layer (src/envs/vss_strat.py).

  Numeric values are modelled over the exact rationals.  Where the Python
  code calls np.linalg.norm (a square root), the embedding takes the square
  root as an explicit function argument, so that theorems can either stay
  independent of its values or assume its defining equations at the inputs
  that actually occur.
-/

namespace VSSStrat

/-- The per-step reward component vector, in the fixed order used by the
code: rewards[0] = move, rewards[1] = ball-potential gradient,
rewards[2] = energy penalty, rewards[3] = goal. -/
structure Vec4 where
  move : ℚ
  grad : ℚ
  energy : ℚ
  goal : ℚ
deriving DecidableEq, Repr

/-- Elementwise product followed by sum, modelling
(strat_reward * self.ori_weights).sum(). -/
def Vec4.dot (a b : Vec4) : ℚ :=
  a.move * b.move + a.grad * b.grad + a.energy * b.energy + a.goal * b.goal

/-- Sum of the four components of a vector. -/
def Vec4.sum (a : Vec4) : ℚ := a.move + a.grad + a.energy + a.goal

/-- self.ori_weights = np.array([0.6600, 0.3200, 0.0053, 0.0080]) from
VSSStratEnv.__init__ (line 80). -/
def ori_weights : Vec4 := ⟨0.66, 0.32, 0.0053, 0.0080⟩

/-- self.energy_scale = 40000 (line 70). -/
def energy_scale : ℚ := 40000

/-- self.grad_scale = 0.75 (line 71). -/
def grad_scale : ℚ := 0.75

/-- self.move_scale = 120 (line 72). -/
def move_scale : ℚ := 120

/-- self.v_wheel_deadzone = 0.05 (line 69). -/
def v_wheel_deadzone : ℚ := 0.05

/-- The ball entry of a frame: position and velocity. -/
structure BallS where
  x : ℚ
  y : ℚ
  v_x : ℚ
  v_y : ℚ
deriving DecidableEq, Repr

/-- A robot entry of a frame: position, heading (degrees) and velocities. -/
structure RobotS where
  x : ℚ
  y : ℚ
  theta : ℚ
  v_x : ℚ
  v_y : ℚ
  v_theta : ℚ
deriving DecidableEq, Repr, Inhabited

/-- A physics frame: ball plus the two ordered robot collections (id order). -/
structure FrameS where
  ball : BallS
  robots_blue : List RobotS
  robots_yellow : List RobotS
deriving DecidableEq, Repr

/-- self.frame.robots_blue[0], the learning-controlled robot. -/
def FrameS.robot0 (f : FrameS) : RobotS := f.robots_blue.headI

/-- The two wheel commands of a Robot command, as sent to the simulator
(self.sent_commands[0].v_wheel0 / .v_wheel1). -/
structure CmdS where
  v_wheel0 : ℚ
  v_wheel1 : ℚ
deriving DecidableEq, Repr

/-- The cumulative_reward_info dictionary (lines 179-185; the goal_blue and
goal_yellow keys are set by step at lines 114-115, modelled as 0 before the
first step). -/
structure Info where
  reward_move : ℚ
  reward_ball_grad : ℚ
  reward_energy : ℚ
  reward_goal : ℚ
  Original_reward : ℚ
  goal_blue : ℚ
  goal_yellow : ℚ
deriving DecidableEq, Repr

/-- The zero-valued info dictionary created lazily on the first reward
computation (lines 178-185). -/
def info0 : Info := ⟨0, 0, 0, 0, 0, 0, 0⟩

/-- The reward value returned by step: a 4-component vector in stratified
mode, a scalar in legacy mode. -/
inductive RewardOut where
  | vec (r : Vec4)
  | scalar (x : ℚ)
deriving DecidableEq, Repr

/-- vector robot -> ball on the current frame: ball - robot
(lines 301-306 of __move_reward). -/
def robotBall (f : FrameS) : ℚ × ℚ :=
  (f.ball.x - f.robot0.x, f.ball.y - f.robot0.y)

/-- robot_vel = [robots_blue[0].v_x, robots_blue[0].v_y] (lines 303-305). -/
def robotVel (f : FrameS) : ℚ × ℚ := (f.robot0.v_x, f.robot0.v_y)

/-- np.dot on 2-vectors. -/
def dot2 (v w : ℚ × ℚ) : ℚ := v.1 * w.1 + v.2 * w.2

/-- np.linalg.norm of a 2-vector, with the square root passed explicitly:
the norm is sq applied to the sum of squares. -/
def vecNorm (sq : ℚ → ℚ) (v : ℚ × ℚ) : ℚ := sq (v.1 ^ 2 + v.2 ^ 2)

/-- robot_ball = robot_ball / np.linalg.norm(robot_ball) (line 307). -/
def unitRobotBall (sq : ℚ → ℚ) (f : FrameS) : ℚ × ℚ :=
  let rb := robotBall f
  let n := vecNorm sq rb
  (rb.1 / n, rb.2 / n)

/-- VSSStratEnv.__move_reward (lines 294-310):
np.dot(robot_ball_unit, robot_vel) / move_scale. -/
def __move_reward (sq : ℚ → ℚ) (f : FrameS) : ℚ :=
  dot2 (unitRobotBall sq f) (robotVel f) / move_scale

/-- VSSStratEnv.__ball_grad (lines 275-292): previous ball distance to the
goal mouth (length/2, 0) minus current distance, over grad_scale. -/
def __ball_grad (sq : ℚ → ℚ) (fieldLength : ℚ) (lastF f : FrameS) : ℚ :=
  let lastDist := vecNorm sq (fieldLength / 2 - lastF.ball.x, 0 - lastF.ball.y)
  let dist := vecNorm sq (fieldLength / 2 - f.ball.x, 0 - f.ball.y)
  (lastDist - dist) / grad_scale

/-- VSSStratEnv.__energy_penalty (lines 312-318): minus the sum of the
absolute wheel commands last sent to robot 0, over energy_scale. -/
def __energy_penalty (c : CmdS) : ℚ :=
  -(|c.v_wheel0| + |c.v_wheel1|) / energy_scale

/-- VSSStratEnv._calculate_reward_and_done (lines 171-211), reward/done
part: goal check first; the move / gradient / energy components are
computed only when no goal occurred and a previous frame exists, otherwise
they stay 0.  Returns (rewards, goal_reward != 0).  The cumulative-info
update of lines 206-209 is modelled separately by calcInfoUpdate. -/
def _calculate_reward_and_done (sq : ℚ → ℚ) (fieldLength : ℚ) (f : FrameS)
    (lastFrame : Option FrameS) (sent0 : CmdS) : Vec4 × Bool :=
  if f.ball.x > fieldLength / 2 then
    (⟨0, 0, 0, 1⟩, true)
  else if f.ball.x < -(fieldLength / 2) then
    (⟨0, 0, 0, -1⟩, true)
  else
    match lastFrame with
    | some lastF =>
        (⟨__move_reward sq f, __ball_grad sq fieldLength lastF f,
          __energy_penalty sent0, 0⟩, false)
    | none => (⟨0, 0, 0, 0⟩, false)

/-- The cumulative_reward_info update performed by
_calculate_reward_and_done (lines 206-209): each component total grows by
this step's component. -/
def calcInfoUpdate (info : Info) (r : Vec4) : Info :=
  { info with
    reward_move := info.reward_move + r.move
    reward_ball_grad := info.reward_ball_grad + r.grad
    reward_energy := info.reward_energy + r.energy
    reward_goal := info.reward_goal + r.goal }

/-- VSSStratEnv.step (lines 100-117), reward-selection and info part:
given the stratified flag, this step's component vector strat_reward and
the info dictionary as left by _calculate_reward_and_done, compute the
exposed reward (vector in stratified mode, weighted scalar otherwise),
accumulate Original_reward, and set the goal indicator entries. -/
def step (stratified : Bool) (strat_reward : Vec4) (info : Info) :
    RewardOut × Info :=
  let original_reward := Vec4.dot strat_reward ori_weights
  let reward := if stratified then RewardOut.vec strat_reward
                else RewardOut.scalar original_reward
  let info1 := { info with Original_reward := info.Original_reward + original_reward }
  let info2 := { info1 with
    goal_blue := if strat_reward.goal = 1 then 1 else 0
    goal_yellow := if strat_reward.goal = -1 then 1 else 0 }
  (reward, info2)

/-- One environment step's total effect on the info dictionary:
_calculate_reward_and_done's component accumulation followed by step's
Original_reward accumulation and goal indicators. -/
def envStepInfo (stratified : Bool) (info : Info) (r : Vec4) : Info :=
  (step stratified r (calcInfoUpdate info r)).2

/-- np.clip of a scalar: np.minimum(hi, np.maximum(lo, x)). -/
def np_clip (x lo hi : ℚ) : ℚ := min hi (max lo x)

/-- VSSStratEnv._actions_to_v_wheels (lines 254-273): scale both action
components by max_v, clip to [-max_v, max_v], zero any value strictly
inside the dead-zone band, then divide by the wheel radius. -/
def _actions_to_v_wheels (max_v rbt_wheel_radius : ℚ) (a0 a1 : ℚ) : ℚ × ℚ :=
  let left_wheel_speed := a0 * max_v
  let right_wheel_speed := a1 * max_v
  let left1 := np_clip left_wheel_speed (-max_v) max_v
  let right1 := np_clip right_wheel_speed (-max_v) max_v
  let left2 := if -v_wheel_deadzone < left1 ∧ left1 < v_wheel_deadzone
               then 0 else left1
  let right2 := if -v_wheel_deadzone < right1 ∧ right1 < v_wheel_deadzone
                then 0 else right1
  (left2 / rbt_wheel_radius, right2 / rbt_wheel_radius)

/-- The declared observation-space shape: gym.spaces.Box(..., shape=(40,))
at line 62, a constant independent of the robot counts passed at
construction. -/
def observation_space_shape : ℕ := 40

/-- VSSStratEnv._frame_to_observations (lines 119-144): ball x, y, v_x,
v_y, then 7 entries per blue robot (position, sin and cos of the heading,
velocities), then 5 entries per yellow robot (no heading terms).  The
normalisation helpers of the base class and np.sin / np.cos on the heading
are passed as function arguments. -/
def _frame_to_observations (normPos normV normW sinD cosD : ℚ → ℚ)
    (f : FrameS) : List ℚ :=
  [normPos f.ball.x, normPos f.ball.y, normV f.ball.v_x, normV f.ball.v_y]
    ++ f.robots_blue.flatMap (fun r =>
        [normPos r.x, normPos r.y, sinD r.theta, cosD r.theta,
         normV r.v_x, normV r.v_y, normW r.v_theta])
    ++ f.robots_yellow.flatMap (fun r =>
        [normPos r.x, normPos r.y, normV r.v_x, normV r.v_y, normW r.v_theta])

/-- A placed 2-D point (ball or robot position) as inserted into the
spatial index. -/
structure Pt where
  x : ℚ
  y : ℚ
deriving DecidableEq, Repr

/-- Squared Euclidean distance between two placed points. -/
def distSq (p q : Pt) : ℚ := (p.x - q.x) ^ 2 + (p.y - q.y) ^ 2

/-- min_dist = 0.1 (line 231). -/
def min_dist : ℚ := 0.1

/-- Modelled from the spec: the external spatial-index boundary
(insert(point), nearest(point) -> (point, distance), used only during
placement).  The rejection test places.get_nearest(pos)[1] < min_dist
holds iff some already-placed point lies within Euclidean distance
min_dist of pos; the comparison is taken on squared distances, which is
equivalent for nonnegative distances and keeps the model inside the
rationals. -/
def nearestTooClose (places : List Pt) (p : Pt) : Bool :=
  places.any fun q => distSq q p < min_dist ^ 2

/-- random.uniform(a, b) modelled as a + (b - a) * u, where u is a unit
sample in [0, 1] drawn from the random stream (CPython computes
a + (b - a) * random()). -/
def uniformQ (a b u : ℚ) : ℚ := a + (b - a) * u

/-- x() (lines 218-219): uniform over
[-field_half_length + 0.1, field_half_length - 0.1]. -/
def sampleX (field_half_length u : ℚ) : ℚ :=
  uniformQ (-field_half_length + 0.1) (field_half_length - 0.1) u

/-- y() (lines 221-222): uniform over
[-field_half_width + 0.1, field_half_width - 0.1]. -/
def sampleY (field_half_width u : ℚ) : ℚ :=
  uniformQ (-field_half_width + 0.1) (field_half_width - 0.1) u

/-- theta() (lines 224-225): uniform over [0, 360]. -/
def sampleTheta (u : ℚ) : ℚ := uniformQ 0 360 u

/-- The rejection loop for one robot (lines 237-241 and 245-249): draw a
position from the next unit-sample pair; while the nearest already-placed
point is closer than min_dist, redraw; otherwise accept and return the
remaining stream.  The unbounded Python while-loop is modelled on a finite
unit-sample stream; exhausting the stream returns none. -/
def placeOne (hl hw : ℚ) (places : List Pt) :
    List (ℚ × ℚ) → Option (Pt × List (ℚ × ℚ))
  | [] => none
  | uv :: rest =>
      let p : Pt := ⟨sampleX hl uv.1, sampleY hw uv.2⟩
      if nearestTooClose places p then placeOne hl hw places rest
      else some (p, rest)

/-- One of the robot-placement for-loops (lines 236-242 and 244-250):
place n robots in id order; each accepted position is inserted into the
index and the robot receives a heading drawn from the theta stream.
Returns the placed robots, the index contents, and the remaining
streams. -/
def placeRobots (hl hw : ℚ) :
    ℕ → List Pt → List (ℚ × ℚ) → List ℚ →
      Option (List (Pt × ℚ) × List Pt × List (ℚ × ℚ) × List ℚ)
  | 0, places, us, ts => some ([], places, us, ts)
  | n + 1, places, us, ts =>
      match placeOne hl hw places us with
      | none => none
      | some (p, rest) =>
          match ts with
          | [] => none
          | t :: ts1 =>
              match placeRobots hl hw n (places ++ [p]) rest ts1 with
              | none => none
              | some (rs, placesOut, rem, tsOut) =>
                  some ((p, sampleTheta t) :: rs, placesOut, rem, tsOut)

/-- The initial frame produced by the placement sampler: ball position and
the blue and yellow robots (position and heading) in id order. -/
structure PosFrame where
  ball : Pt
  robots_blue : List (Pt × ℚ)
  robots_yellow : List (Pt × ℚ)
deriving DecidableEq, Repr

/-- VSSStratEnv._get_initial_positions_frame (lines 213-252): the ball is
placed first from the first unit-sample pair with no separation test and
inserted into the index, then the blue robots by id, then the yellow
robots by id, each through the rejection loop.  Besides the frame, the
final contents of the spatial index (the insertion order: ball first, then
accepted positions in placement order) are returned. -/
def _get_initial_positions_frame (hl hw : ℚ) (nBlue nYellow : ℕ)
    (us : List (ℚ × ℚ)) (ts : List ℚ) : Option (PosFrame × List Pt) :=
  match us with
  | [] => none
  | uv :: us1 =>
      let ball : Pt := ⟨sampleX hl uv.1, sampleY hw uv.2⟩
      match placeRobots hl hw nBlue [ball] us1 ts with
      | none => none
      | some (blues, places2, us2, ts2) =>
          match placeRobots hl hw nYellow places2 us2 ts2 with
          | none => none
          | some (yellows, places3, _, _) =>
              some (⟨ball, blues, yellows⟩, places3)

/-- A unit sample pair: both coordinates lie in [0, 1]. -/
def unitSample (uv : ℚ × ℚ) : Prop :=
  0 ≤ uv.1 ∧ uv.1 ≤ 1 ∧ 0 ≤ uv.2 ∧ uv.2 ≤ 1

/-- A point lies in the sampling rectangle
[-hl + 0.1, hl - 0.1] x [-hw + 0.1, hw - 0.1]. -/
def inPlacementBounds (hl hw : ℚ) (p : Pt) : Prop :=
  -hl + 0.1 ≤ p.x ∧ p.x ≤ hl - 0.1 ∧ -hw + 0.1 ≤ p.y ∧ p.y ≤ hw - 0.1

/-- Two placed points are separated by at least min_dist: stated on
squared distances, equivalent to Euclidean distance at least 0.1. -/
def separated (p q : Pt) : Prop := min_dist ^ 2 ≤ distSq p q

/-- Written from the claim's words, for comparison with the code: the
cosine similarity of two vectors is their dot product divided by the
product of their Euclidean norms. -/
def cosineSimilaritySpec (sq : ℚ → ℚ) (v w : ℚ × ℚ) : ℚ :=
  dot2 v w / (vecNorm sq v * vecNorm sq w)

/-- Written from the claim's words, for comparison with __move_reward: the
cosine similarity between the robot's velocity vector and the unit vector
from robot to ball, scaled down by move_scale. -/
def moveRewardSpec (sq : ℚ → ℚ) (f : FrameS) : ℚ :=
  cosineSimilaritySpec sq (robotVel f) (unitRobotBall sq f) / move_scale

end VSSStrat

namespace VSSStrat

/-- Claim C1: in stratified mode step exposes the raw 4-component vector as
reward, and in legacy mode it exposes the dot product of the same step's
unweighted component vector with the fixed weight vector ori_weights, so
the legacy scalar is recomputable from the per-step components and the
weights. -/
theorem step_reward_mode (r : Vec4) (info : Info) :
    (step true r info).1 = RewardOut.vec r ∧
    (step false r info).1 = RewardOut.scalar (Vec4.dot r ori_weights) := by
  constructor <;> rfl

/-- Claim C4 counterexample: the fixed legacy weight vector
[0.66, 0.32, 0.0053, 0.0080] does not sum to 1. -/
theorem ori_weights_sum_ne_one : Vec4.sum ori_weights ≠ 1 := by
  norm_num [Vec4.sum, ori_weights]

/-- Claim C4 (amended): the fixed legacy weight vector sums to exactly
0.9933 in exact arithmetic, not to 1. -/
theorem ori_weights_sum_eq : Vec4.sum ori_weights = 0.9933 := by
  norm_num [Vec4.sum, ori_weights]

/-- Claim C2: the goal component is +1 when ball x exceeds the positive
field half-length, -1 when it is below the negative half-length, else 0;
when the goal component is non-zero the move, gradient and energy
components of that step are all 0; and the done flag returned by
_calculate_reward_and_done is true iff the goal component is non-zero. -/
theorem calc_goal_short_circuit_done (sq : ℚ → ℚ) (L : ℚ) (f : FrameS)
    (lastFrame : Option FrameS) (sent0 : CmdS) :
    ((_calculate_reward_and_done sq L f lastFrame sent0).1.goal =
        if f.ball.x > L / 2 then 1
        else if f.ball.x < -(L / 2) then -1 else 0) ∧
    ((_calculate_reward_and_done sq L f lastFrame sent0).1.goal ≠ 0 →
        (_calculate_reward_and_done sq L f lastFrame sent0).1.move = 0 ∧
        (_calculate_reward_and_done sq L f lastFrame sent0).1.grad = 0 ∧
        (_calculate_reward_and_done sq L f lastFrame sent0).1.energy = 0) ∧
    ((_calculate_reward_and_done sq L f lastFrame sent0).2 = true ↔
        (_calculate_reward_and_done sq L f lastFrame sent0).1.goal ≠ 0) := by
  unfold _calculate_reward_and_done
  split_ifs with h1 h2 <;> cases lastFrame <;> simp

/-- Claim C2 witness: on a concrete frame whose ball x (= 1) exceeds the
half-length (= 1/2), the short-circuit and done conclusions are realized. -/
theorem calc_goal_short_circuit_done_witness :
    ((_calculate_reward_and_done (fun x => x) 1 ⟨⟨1, 0, 0, 0⟩, [], []⟩ none
        ⟨0, 0⟩).1.move = 0 ∧
      (_calculate_reward_and_done (fun x => x) 1 ⟨⟨1, 0, 0, 0⟩, [], []⟩ none
        ⟨0, 0⟩).1.grad = 0 ∧
      (_calculate_reward_and_done (fun x => x) 1 ⟨⟨1, 0, 0, 0⟩, [], []⟩ none
        ⟨0, 0⟩).1.energy = 0) ∧
    (_calculate_reward_and_done (fun x => x) 1 ⟨⟨1, 0, 0, 0⟩, [], []⟩ none
        ⟨0, 0⟩).2 = true := by
  have h := calc_goal_short_circuit_done (fun x => x) 1 ⟨⟨1, 0, 0, 0⟩, [], []⟩
    none ⟨0, 0⟩
  have hg : (_calculate_reward_and_done (fun x => x) 1 ⟨⟨1, 0, 0, 0⟩, [], []⟩
      none ⟨0, 0⟩).1.goal ≠ 0 := by
    rw [h.1]
    norm_num
  exact ⟨h.2.1 hg, h.2.2.mpr hg⟩

/-- Claim C3 counterexample: on a step with no previous frame and no goal
(ball x = 1, half-length = 2), the energy component returned by
_calculate_reward_and_done is 0, while the most recently sent wheel
commands are (1, 1), whose energy-penalty formula value is -(1/20000). -/
theorem energy_first_step_counterexample :
    (_calculate_reward_and_done (fun x => x) 4 ⟨⟨1, 0, 0, 0⟩, [], []⟩ none
        ⟨1, 1⟩).1.energy = 0 ∧
    __energy_penalty ⟨1, 1⟩ = -(1 / 20000) ∧
    (0 : ℚ) ≠ -(1 / 20000) := by
  refine ⟨?_, ?_, by norm_num⟩
  · norm_num [_calculate_reward_and_done]
  · norm_num [__energy_penalty, energy_scale]

/-- Claim C3 (amended): on every step with a previous frame and no goal,
the energy component equals minus the sum of the absolute values of the
two wheel commands most recently sent to the learning robot, divided by
energy_scale; on a step with no previous frame the energy component is
left at 0 (the guard skips it together with the delta-based components),
even though the helper itself depends only on the last sent command. -/
theorem energy_component (sq : ℚ → ℚ) (L : ℚ) (f lastF : FrameS)
    (sent0 : CmdS) (h1 : ¬f.ball.x > L / 2) (h2 : ¬f.ball.x < -(L / 2)) :
    (_calculate_reward_and_done sq L f (some lastF) sent0).1.energy =
        -(|sent0.v_wheel0| + |sent0.v_wheel1|) / energy_scale ∧
    (_calculate_reward_and_done sq L f none sent0).1.energy = 0 := by
  unfold _calculate_reward_and_done
  rw [if_neg h1, if_neg h2, if_neg h1, if_neg h2]
  exact ⟨rfl, rfl⟩

/-- Claim C3 witness: concrete no-goal frames (ball x = 1, half-length 2)
with sent commands (1, 1): with a previous frame the energy component is
-(|1| + |1|) / 40000, and without one it is 0. -/
theorem energy_component_witness :
    (_calculate_reward_and_done (fun x => x) 4 ⟨⟨1, 0, 0, 0⟩, [], []⟩
        (some ⟨⟨0, 0, 0, 0⟩, [], []⟩) ⟨1, 1⟩).1.energy =
      -(|(1 : ℚ)| + |(1 : ℚ)|) / energy_scale ∧
    (_calculate_reward_and_done (fun x => x) 4 ⟨⟨1, 0, 0, 0⟩, [], []⟩ none
        ⟨1, 1⟩).1.energy = 0 :=
  energy_component (fun x => x) 4 ⟨⟨1, 0, 0, 0⟩, [], []⟩
    ⟨⟨0, 0, 0, 0⟩, [], []⟩ ⟨1, 1⟩ (by norm_num) (by norm_num)

/-- Claim C5 counterexample: a concrete frame (robot at the origin with
velocity (2, 0), ball at (1, 0), no goal, previous frame present) on which
the square-root function is exact at every sum of squares that occurs: the
step's move component is 1/60 while the cosine similarity between the
velocity and the unit robot-to-ball vector, scaled by move_scale, is
1/120.  The code computes the dot product with the unit vector (the
projection of the velocity), not the cosine similarity. -/
theorem move_cosine_counterexample :
    (fun (sq : ℚ → ℚ) (f : FrameS) =>
      vecNorm sq (robotBall f) = 1 ∧
      vecNorm sq (robotVel f) = 2 ∧
      vecNorm sq (unitRobotBall sq f) = 1 ∧
      (_calculate_reward_and_done sq 4 f (some f) ⟨0, 0⟩).1.move = 1 / 60 ∧
      moveRewardSpec sq f = 1 / 120 ∧
      (1 / 60 : ℚ) ≠ 1 / 120)
      (fun x => if x = 1 then 1 else if x = 4 then 2 else 0)
      ⟨⟨1, 0, 0, 0⟩, [⟨0, 0, 0, 2, 0, 0⟩], []⟩ := by
  refine ⟨?_, ?_, ?_, ?_, ?_, by norm_num⟩ <;>
    norm_num [vecNorm, robotBall, robotVel, unitRobotBall, FrameS.robot0,
      _calculate_reward_and_done, __move_reward, dot2, moveRewardSpec,
      cosineSimilaritySpec, move_scale]

/-- Claim C5 (amended): on every step with a previous frame and no goal,
the move component equals the dot product of the robot's velocity with the
unit vector from robot to ball, divided by move_scale — equivalently, the
dot product of the robot-to-ball vector with the velocity divided by the
norm times move_scale — which is the cosine similarity scaled by the
robot's speed, not the bare cosine similarity; on a step with no previous
frame the move component is 0. -/
theorem move_component (sq : ℚ → ℚ) (L : ℚ) (f lastF : FrameS) (sent0 : CmdS)
    (h1 : ¬f.ball.x > L / 2) (h2 : ¬f.ball.x < -(L / 2)) :
    (_calculate_reward_and_done sq L f (some lastF) sent0).1.move =
        __move_reward sq f ∧
    (_calculate_reward_and_done sq L f none sent0).1.move = 0 ∧
    (vecNorm sq (robotBall f) ≠ 0 →
      __move_reward sq f =
        dot2 (robotBall f) (robotVel f) /
          (vecNorm sq (robotBall f) * move_scale)) ∧
    (vecNorm sq (unitRobotBall sq f) = 1 → vecNorm sq (robotVel f) ≠ 0 →
      __move_reward sq f = moveRewardSpec sq f * vecNorm sq (robotVel f)) := by
  refine ⟨?_, ?_, ?_, ?_⟩
  · unfold _calculate_reward_and_done
    rw [if_neg h1, if_neg h2]
  · unfold _calculate_reward_and_done
    rw [if_neg h1, if_neg h2]
  · intro hn
    unfold __move_reward unitRobotBall dot2
    have hms : (move_scale : ℚ) ≠ 0 := by norm_num [move_scale]
    field_simp
  · intro hu hv
    unfold moveRewardSpec cosineSimilaritySpec __move_reward
    rw [hu]
    unfold dot2
    have hms : (move_scale : ℚ) ≠ 0 := by norm_num [move_scale]
    field_simp
    ring

/-- Claim C5 witness: the amended statement realized on the concrete
no-goal frame of the counterexample, with an exact square-root function:
move component 1/60 = projection formula, and code value = claimed cosine
value times the robot speed. -/
theorem move_component_witness :
    (fun (sq : ℚ → ℚ) (f : FrameS) =>
      (_calculate_reward_and_done sq 4 f (some f) ⟨0, 0⟩).1.move =
          __move_reward sq f ∧
      __move_reward sq f =
          dot2 (robotBall f) (robotVel f) /
            (vecNorm sq (robotBall f) * move_scale) ∧
      __move_reward sq f = moveRewardSpec sq f * vecNorm sq (robotVel f))
      (fun x => if x = 1 then 1 else if x = 4 then 2 else 0)
      ⟨⟨1, 0, 0, 0⟩, [⟨0, 0, 0, 2, 0, 0⟩], []⟩ := by
  have h := move_component
    (fun x => if x = 1 then 1 else if x = 4 then 2 else 0) 4
    ⟨⟨1, 0, 0, 0⟩, [⟨0, 0, 0, 2, 0, 0⟩], []⟩
    ⟨⟨1, 0, 0, 0⟩, [⟨0, 0, 0, 2, 0, 0⟩], []⟩ ⟨0, 0⟩
    (by norm_num) (by norm_num)
  refine ⟨h.1, h.2.2.1 ?_, h.2.2.2 ?_ ?_⟩ <;>
    norm_num [vecNorm, robotBall, robotVel, unitRobotBall, FrameS.robot0]

/-- Claim C9: the move-reward computation divides by the Euclidean norm of
the robot-to-ball vector with no guard: on a concrete frame where the
learning robot's position coincides with the ball's position, that vector
is (0, 0), so for every square-root function sending 0 to 0 (as the real
square root and np.linalg.norm do) the divisor used by __move_reward and
unitRobotBall is exactly 0. -/
theorem move_divisor_zero :
    robotBall ⟨⟨3 / 10, 1 / 5, 0, 0⟩, [⟨3 / 10, 1 / 5, 0, 0, 0, 0⟩], []⟩ =
      (0, 0) ∧
    ∀ sq : ℚ → ℚ, sq 0 = 0 →
      vecNorm sq
        (robotBall ⟨⟨3 / 10, 1 / 5, 0, 0⟩, [⟨3 / 10, 1 / 5, 0, 0, 0, 0⟩], []⟩)
        = 0 := by
  have hrb : robotBall
      ⟨⟨3 / 10, 1 / 5, 0, 0⟩, [⟨3 / 10, 1 / 5, 0, 0, 0, 0⟩], []⟩ = (0, 0) := by
    norm_num [robotBall, FrameS.robot0]
  refine ⟨hrb, fun sq h0 => ?_⟩
  rw [hrb]
  simpa [vecNorm] using h0

/-- Claim C9 witness: with the identity as square-root function (which does
send 0 to 0), the divisor is 0 on the coinciding frame. -/
theorem move_divisor_zero_witness :
    vecNorm (fun x => x)
      (robotBall ⟨⟨3 / 10, 1 / 5, 0, 0⟩, [⟨3 / 10, 1 / 5, 0, 0, 0, 0⟩], []⟩)
      = 0 :=
  move_divisor_zero.2 (fun x => x) rfl

/-- Folding one environment step onto an arbitrary info dictionary grows
the move total by exactly this step's move component. -/
theorem foldl_reward_move (b : Bool) (rs : List Vec4) : ∀ info : Info,
    (rs.foldl (envStepInfo b) info).reward_move =
      info.reward_move + (rs.map Vec4.move).sum := by
  induction rs with
  | nil => intro info; simp
  | cons r t ih =>
      intro info
      rw [List.foldl_cons, ih]
      simp [envStepInfo, step, calcInfoUpdate]
      ring

/-- Folding one environment step onto an arbitrary info dictionary grows
the gradient total by exactly this step's gradient component. -/
theorem foldl_reward_ball_grad (b : Bool) (rs : List Vec4) : ∀ info : Info,
    (rs.foldl (envStepInfo b) info).reward_ball_grad =
      info.reward_ball_grad + (rs.map Vec4.grad).sum := by
  induction rs with
  | nil => intro info; simp
  | cons r t ih =>
      intro info
      rw [List.foldl_cons, ih]
      simp [envStepInfo, step, calcInfoUpdate]
      ring

/-- Folding one environment step onto an arbitrary info dictionary grows
the energy total by exactly this step's energy component. -/
theorem foldl_reward_energy (b : Bool) (rs : List Vec4) : ∀ info : Info,
    (rs.foldl (envStepInfo b) info).reward_energy =
      info.reward_energy + (rs.map Vec4.energy).sum := by
  induction rs with
  | nil => intro info; simp
  | cons r t ih =>
      intro info
      rw [List.foldl_cons, ih]
      simp [envStepInfo, step, calcInfoUpdate]
      ring

/-- Folding one environment step onto an arbitrary info dictionary grows
the goal total by exactly this step's goal component. -/
theorem foldl_reward_goal (b : Bool) (rs : List Vec4) : ∀ info : Info,
    (rs.foldl (envStepInfo b) info).reward_goal =
      info.reward_goal + (rs.map Vec4.goal).sum := by
  induction rs with
  | nil => intro info; simp
  | cons r t ih =>
      intro info
      rw [List.foldl_cons, ih]
      simp [envStepInfo, step, calcInfoUpdate]
      ring

/-- Folding one environment step onto an arbitrary info dictionary grows
the legacy-equivalent total by exactly this step's weighted scalar,
whatever the mode flag is. -/
theorem foldl_Original_reward (b : Bool) (rs : List Vec4) : ∀ info : Info,
    (rs.foldl (envStepInfo b) info).Original_reward =
      info.Original_reward + (rs.map (fun r => Vec4.dot r ori_weights)).sum := by
  induction rs with
  | nil => intro info; simp
  | cons r t ih =>
      intro info
      rw [List.foldl_cons, ih]
      simp [envStepInfo, step, calcInfoUpdate]
      ring

/-- Claim C6: starting from the freshly initialized info dictionary, after
any sequence of per-step unweighted component vectors, in either mode, the
four per-component running totals equal the exact sums of the per-step
components, and the legacy-equivalent Original_reward total equals the sum
of the per-step fixed-weight dot products (accumulated every step even in
stratified mode). -/
theorem info_accumulation (b : Bool) (rs : List Vec4) :
    (rs.foldl (envStepInfo b) info0).reward_move = (rs.map Vec4.move).sum ∧
    (rs.foldl (envStepInfo b) info0).reward_ball_grad =
      (rs.map Vec4.grad).sum ∧
    (rs.foldl (envStepInfo b) info0).reward_energy =
      (rs.map Vec4.energy).sum ∧
    (rs.foldl (envStepInfo b) info0).reward_goal = (rs.map Vec4.goal).sum ∧
    (rs.foldl (envStepInfo b) info0).Original_reward =
      (rs.map (fun r => Vec4.dot r ori_weights)).sum := by
  refine ⟨?_, ?_, ?_, ?_, ?_⟩
  · rw [foldl_reward_move b rs info0]; simp [info0]
  · rw [foldl_reward_ball_grad b rs info0]; simp [info0]
  · rw [foldl_reward_energy b rs info0]; simp [info0]
  · rw [foldl_reward_goal b rs info0]; simp [info0]
  · rw [foldl_Original_reward b rs info0]; simp [info0]

/-- Clipping into the symmetric band [-m, m] bounds the absolute value by
m whenever m is nonnegative. -/
theorem np_clip_abs_le (x m : ℚ) (hm : 0 ≤ m) : |np_clip x (-m) m| ≤ m := by
  rw [abs_le]
  constructor
  · exact le_min (by linarith) (le_max_left _ _)
  · exact min_le_left _ _

/-- Claim C7: for actions with both components in [-1, 1] (and any
nonnegative max_v and positive wheel radius), both output wheel speeds of
_actions_to_v_wheels have absolute value at most max_v divided by the
wheel radius, and whenever a scaled-and-clipped pre-conversion value has
absolute magnitude strictly below the 0.05 dead-zone the corresponding
output is exactly zero. -/
theorem actions_to_v_wheels_bounds (max_v r a0 a1 : ℚ)
    (ha0 : -1 ≤ a0) (ha1 : a0 ≤ 1) (hb0 : -1 ≤ a1) (hb1 : a1 ≤ 1)
    (hm : 0 ≤ max_v) (hr : 0 < r) :
    |(_actions_to_v_wheels max_v r a0 a1).1| ≤ max_v / r ∧
    |(_actions_to_v_wheels max_v r a0 a1).2| ≤ max_v / r ∧
    (|np_clip (a0 * max_v) (-max_v) max_v| < v_wheel_deadzone →
      (_actions_to_v_wheels max_v r a0 a1).1 = 0) ∧
    (|np_clip (a1 * max_v) (-max_v) max_v| < v_wheel_deadzone →
      (_actions_to_v_wheels max_v r a0 a1).2 = 0) := by
  have hout : ∀ v : ℚ, |v| ≤ max_v → |v / r| ≤ max_v / r := by
    intro v hv
    rw [abs_div, abs_of_pos hr]
    exact (div_le_div_iff_of_pos_right hr).mpr hv
  have habs : ∀ v : ℚ, |v| ≤ max_v →
      |(if -v_wheel_deadzone < v ∧ v < v_wheel_deadzone then (0 : ℚ) else v)|
        ≤ max_v := by
    intro v hv
    split_ifs with h
    · simpa using hm
    · exact hv
  refine ⟨?_, ?_, ?_, ?_⟩
  · simp only [_actions_to_v_wheels]
    exact hout _ (habs _ (np_clip_abs_le _ _ hm))
  · simp only [_actions_to_v_wheels]
    exact hout _ (habs _ (np_clip_abs_le _ _ hm))
  · intro h
    simp only [_actions_to_v_wheels]
    rw [if_pos (abs_lt.mp h), zero_div]
  · intro h
    simp only [_actions_to_v_wheels]
    rw [if_pos (abs_lt.mp h), zero_div]

/-- Claim C7 witness: action (1, 0) with max_v = 1 and wheel radius 1:
both bounds hold, and the right wheel's scaled value 0 lies inside the
dead-zone, so the right output is exactly 0. -/
theorem actions_to_v_wheels_bounds_witness :
    |(_actions_to_v_wheels 1 1 1 0).1| ≤ 1 / 1 ∧
    (_actions_to_v_wheels 1 1 1 0).2 = 0 := by
  have h := actions_to_v_wheels_bounds 1 1 1 0 (by norm_num) (by norm_num)
    (by norm_num) (by norm_num) (by norm_num) (by norm_num)
  refine ⟨h.1, h.2.2.2 ?_⟩
  norm_num [np_clip, v_wheel_deadzone]

/-- A bind whose blocks all have the same length k produces k entries per
input element. -/
theorem length_flatMap_const {α β : Type} (l : List α) (g : α → List β) (k : ℕ)
    (h : ∀ a, (g a).length = k) : (l.flatMap g).length = k * l.length := by
  induction l with
  | nil => simp
  | cons a t ih =>
      rw [List.flatMap_cons, List.length_append, ih, h a, List.length_cons]
      ring

/-- Claim C10: for every frame, the observation encoder returns a vector
of length 4 + 7 * n_robots_blue + 5 * n_robots_yellow, while the declared
observation-space shape is the constant 40 independent of the robot
counts, and the encoded length matches the declared shape exactly when
there are 3 blue and 3 yellow robots. -/
theorem observation_length (normPos normV normW sinD cosD : ℚ → ℚ)
    (f : FrameS) :
    (_frame_to_observations normPos normV normW sinD cosD f).length =
      4 + 7 * f.robots_blue.length + 5 * f.robots_yellow.length ∧
    ∀ nb ny : ℕ,
      (4 + 7 * nb + 5 * ny = observation_space_shape ↔ nb = 3 ∧ ny = 3) := by
  constructor
  · have hb := length_flatMap_const f.robots_blue (fun r =>
      [normPos r.x, normPos r.y, sinD r.theta, cosD r.theta,
       normV r.v_x, normV r.v_y, normW r.v_theta]) 7 (fun a => rfl)
    have hy := length_flatMap_const f.robots_yellow (fun r =>
      [normPos r.x, normPos r.y, normV r.v_x, normV r.v_y, normW r.v_theta])
      5 (fun a => rfl)
    simp only [_frame_to_observations, List.length_append, hb, hy]
    norm_num
  · intro nb ny
    simp only [observation_space_shape]
    omega

/-- A uniform draw with a unit sample lands inside the interval. -/
theorem uniformQ_mem (a b u : ℚ) (hab : a ≤ b) (h0 : 0 ≤ u) (h1 : u ≤ 1) :
    a ≤ uniformQ a b u ∧ uniformQ a b u ≤ b := by
  unfold uniformQ
  constructor <;> nlinarith

/-- An accepted position from the rejection loop is separated from every
already-placed point, lies in the sampling rectangle, and leaves only unit
samples in the remaining stream. -/
theorem placeOne_some (hl hw : ℚ) (hhl : (0.1 : ℚ) ≤ hl)
    (hhw : (0.1 : ℚ) ≤ hw) :
    ∀ (us : List (ℚ × ℚ)) (places : List Pt) (p : Pt) (rest : List (ℚ × ℚ)),
      (∀ uv ∈ us, unitSample uv) →
      placeOne hl hw places us = some (p, rest) →
      (∀ q ∈ places, separated q p) ∧ inPlacementBounds hl hw p ∧
        ∀ uv ∈ rest, unitSample uv := by
  intro us
  induction us with
  | nil => intro places p rest hus h; simp [placeOne] at h
  | cons uv tl ih =>
      intro places p rest hus h
      simp only [placeOne] at h
      by_cases hc :
          nearestTooClose places ⟨sampleX hl uv.1, sampleY hw uv.2⟩ = true
      · rw [if_pos hc] at h
        exact ih places p rest (fun x hx => hus x (List.mem_cons_of_mem _ hx)) h
      · rw [if_neg hc] at h
        simp only [Option.some.injEq, Prod.mk.injEq] at h
        obtain ⟨hp, hrest⟩ := h
        subst hp
        subst hrest
        obtain ⟨hu0, hu1, hv0, hv1⟩ := hus uv (List.mem_cons_self _ _)
        have hx := uniformQ_mem (-hl + 0.1) (hl - 0.1) uv.1 (by linarith) hu0 hu1
        have hy := uniformQ_mem (-hw + 0.1) (hw - 0.1) uv.2 (by linarith) hv0 hv1
        refine ⟨?_, ⟨hx.1, hx.2, hy.1, hy.2⟩,
          fun x hx => hus x (List.mem_cons_of_mem _ hx)⟩
        intro q hq
        simp only [nearestTooClose, List.any_eq_true, decide_eq_true_eq] at hc
        push_neg at hc
        exact hc q hq

/-- Placing n robots through the rejection loop appends the accepted
positions in order to the index, keeps the remaining stream made of unit
samples, keeps every accepted position inside the sampling rectangle, and
preserves pairwise separation of the index contents. -/
theorem placeRobots_some (hl hw : ℚ) (hhl : (0.1 : ℚ) ≤ hl)
    (hhw : (0.1 : ℚ) ≤ hw) :
    ∀ (n : ℕ) (places : List Pt) (us : List (ℚ × ℚ)) (ts : List ℚ)
      (rs : List (Pt × ℚ)) (placesOut : List Pt) (rem : List (ℚ × ℚ))
      (tsOut : List ℚ),
      (∀ uv ∈ us, unitSample uv) →
      placeRobots hl hw n places us ts = some (rs, placesOut, rem, tsOut) →
      placesOut = places ++ rs.map Prod.fst ∧
      (∀ uv ∈ rem, unitSample uv) ∧
      (∀ r ∈ rs, inPlacementBounds hl hw r.1) ∧
      (places.Pairwise separated → placesOut.Pairwise separated) := by
  intro n
  induction n with
  | zero =>
      intro places us ts rs placesOut rem tsOut hus h
      simp only [placeRobots, Option.some.injEq, Prod.mk.injEq] at h
      obtain ⟨h1, h2, h3, h4⟩ := h
      subst h1
      subst h2
      subst h3
      subst h4
      exact ⟨by simp, hus, by simp, fun hp => hp⟩
  | succ n ih =>
      intro places us ts rs placesOut rem tsOut hus h
      rw [placeRobots] at h
      cases hp : placeOne hl hw places us with
      | none => rw [hp] at h; simp at h
      | some pr =>
          obtain ⟨p, rest⟩ := pr
          rw [hp] at h
          cases ts with
          | nil => simp at h
          | cons t ts1 =>
              cases hrec : placeRobots hl hw n (places ++ [p]) rest ts1 with
              | none =>
                  simp only [hrec] at h
                  exact Option.noConfusion h
              | some out =>
                  obtain ⟨rs1, placesOut1, rem1, tsOut1⟩ := out
                  simp only [hrec, Option.some.injEq, Prod.mk.injEq] at h
                  obtain ⟨h1, h2, h3, h4⟩ := h
                  subst h1
                  subst h2
                  subst h3
                  subst h4
                  obtain ⟨hsep, hbnd, hrest⟩ :=
                    placeOne_some hl hw hhl hhw us places p rest hus hp
                  obtain ⟨heq, hrem, hbnds, hpair⟩ :=
                    ih (places ++ [p]) rest ts1 rs1 placesOut1 rem1 tsOut1
                      hrest hrec
                  refine ⟨?_, hrem, ?_, ?_⟩
                  · rw [heq]
                    simp
                  · intro r hr
                    rcases List.mem_cons.mp hr with hr | hr
                    · rw [hr]
                      exact hbnd
                    · exact hbnds r hr
                  · intro hpw
                    apply hpair
                    refine List.pairwise_append.mpr
                      ⟨hpw, List.pairwise_singleton _ _, ?_⟩
                    intro a ha b hb
                    rw [List.mem_singleton] at hb
                    subst hb
                    exact hsep a ha

/-- Claim C8: whenever the placement sampler succeeds on a stream of unit
samples (and the half-length and half-width are at least 0.1, so the
sampling rectangle is nonempty), the spatial index finally contains the
ball first, then the blue robots in id order, then the yellow robots in id
order; every pair of placed points (ball included) is separated by at
least min_dist (stated on squared distances: 0.1 squared is a lower bound
of every pairwise squared distance); and every placed coordinate lies in
[-half_length + 0.1, half_length - 0.1] x [-half_width + 0.1,
half_width - 0.1]. -/
theorem initial_positions_invariants (hl hw : ℚ) (nBlue nYellow : ℕ)
    (us : List (ℚ × ℚ)) (ts : List ℚ) (frame : PosFrame) (order : List Pt)
    (hhl : (0.1 : ℚ) ≤ hl) (hhw : (0.1 : ℚ) ≤ hw)
    (hus : ∀ uv ∈ us, unitSample uv)
    (h : _get_initial_positions_frame hl hw nBlue nYellow us ts =
      some (frame, order)) :
    order = frame.ball ::
        (frame.robots_blue.map Prod.fst ++ frame.robots_yellow.map Prod.fst) ∧
    order.Pairwise separated ∧
    ∀ p ∈ order, inPlacementBounds hl hw p := by
  cases us with
  | nil => simp [_get_initial_positions_frame] at h
  | cons uv us1 =>
      simp only [_get_initial_positions_frame] at h
      cases h1 : placeRobots hl hw nBlue
          [⟨sampleX hl uv.1, sampleY hw uv.2⟩] us1 ts with
      | none => rw [h1] at h; simp at h
      | some o1 =>
          obtain ⟨blues, places2, us2, ts2⟩ := o1
          rw [h1] at h
          cases h2 : placeRobots hl hw nYellow places2 us2 ts2 with
          | none =>
              simp only [h2] at h
              exact Option.noConfusion h
          | some o2 =>
              obtain ⟨yellows, places3, us3, ts3⟩ := o2
              simp only [h2, Option.some.injEq, Prod.mk.injEq] at h
              obtain ⟨hframe, horder⟩ := h
              subst hframe
              subst horder
              obtain ⟨hu0, hu1, hv0, hv1⟩ := hus uv (List.mem_cons_self _ _)
              have hbx := uniformQ_mem (-hl + 0.1) (hl - 0.1) uv.1
                (by linarith) hu0 hu1
              have hby := uniformQ_mem (-hw + 0.1) (hw - 0.1) uv.2
                (by linarith) hv0 hv1
              have hB := placeRobots_some hl hw hhl hhw nBlue
                [⟨sampleX hl uv.1, sampleY hw uv.2⟩] us1 ts blues places2
                us2 ts2 (fun x hx => hus x (List.mem_cons_of_mem _ hx)) h1
              have hY := placeRobots_some hl hw hhl hhw nYellow places2 us2
                ts2 yellows places3 us3 ts3 hB.2.1 h2
              have horder3 : places3 =
                  (⟨sampleX hl uv.1, sampleY hw uv.2⟩ : Pt) ::
                    (blues.map Prod.fst ++ yellows.map Prod.fst) := by
                rw [hY.1, hB.1]
                simp
              refine ⟨horder3, ?_, ?_⟩
              · exact hY.2.2.2 (hB.2.2.2 (List.pairwise_singleton _ _))
              · intro p hp
                rw [horder3] at hp
                rcases List.mem_cons.mp hp with hp | hp
                · subst hp
                  exact ⟨hbx.1, hbx.2, hby.1, hby.2⟩
                · rcases List.mem_append.mp hp with hp | hp
                  · obtain ⟨r, hr, hrp⟩ := List.mem_map.mp hp
                    rw [← hrp]
                    exact hB.2.2.1 r hr
                  · obtain ⟨r, hr, hrp⟩ := List.mem_map.mp hp
                    rw [← hrp]
                    exact hY.2.2.1 r hr

/-- Claim C8 witness: a concrete successful run with half-length and
half-width 11/10, one blue robot and no yellow robots, unit samples
[(0, 0), (1, 1)] and theta stream [0]: the ball lands at (-1, -1), the
blue robot at (1, 1), and the invariants of the placement theorem hold on
the resulting index contents. -/
theorem initial_positions_invariants_witness :
    ([⟨-1, -1⟩, ⟨1, 1⟩] : List Pt) =
        (⟨-1, -1⟩ : Pt) ::
          (([((⟨1, 1⟩ : Pt), (0 : ℚ))].map Prod.fst) ++
            (([] : List (Pt × ℚ)).map Prod.fst)) ∧
    ([⟨-1, -1⟩, ⟨1, 1⟩] : List Pt).Pairwise separated ∧
    ∀ p ∈ ([⟨-1, -1⟩, ⟨1, 1⟩] : List Pt),
      inPlacementBounds (11 / 10) (11 / 10) p := by
  have hx0 : sampleX (11 / 10) 0 = -1 := by
    norm_num [sampleX, uniformQ]
  have hx1 : sampleX (11 / 10) 1 = 1 := by
    norm_num [sampleX, uniformQ]
  have hy0 : sampleY (11 / 10) 0 = -1 := by
    norm_num [sampleY, uniformQ]
  have hy1 : sampleY (11 / 10) 1 = 1 := by
    norm_num [sampleY, uniformQ]
  have ht : sampleTheta 0 = 0 := by
    norm_num [sampleTheta, uniformQ]
  have hnc : nearestTooClose [⟨-1, -1⟩] ⟨1, 1⟩ = false := by
    simp only [nearestTooClose, List.any_cons, List.any_nil, Bool.or_false,
      decide_eq_false_iff_not]
    norm_num [distSq, min_dist]
  have hres : _get_initial_positions_frame (11 / 10) (11 / 10) 1 0
      [(0, 0), (1, 1)] [0] =
      some (⟨⟨-1, -1⟩, [((⟨1, 1⟩ : Pt), (0 : ℚ))], []⟩, [⟨-1, -1⟩, ⟨1, 1⟩]) := by
    simp [_get_initial_positions_frame, placeRobots, placeOne, hx0, hx1,
      hy0, hy1, ht, hnc]
  exact initial_positions_invariants (11 / 10) (11 / 10) 1 0
    [(0, 0), (1, 1)] [0] ⟨⟨-1, -1⟩, [((⟨1, 1⟩ : Pt), (0 : ℚ))], []⟩
    [⟨-1, -1⟩, ⟨1, 1⟩] (by norm_num) (by norm_num)
    (by intro uv huv; fin_cases huv <;> norm_num [unitSample]) hres

end VSSStrat
